import Mathlib

/-!
Verification development for the Loan-Comment-Builder core (src/index.js).

The JavaScript source stores every field value in an untyped slot, but every
use site coerces the value to a string (template literals, string `+=`, and
`Number.parseFloat`, which stringifies its argument first).  The embedding
therefore models the value slot as its string coercion; the numeric initial
values `0.0` and `0` of the constructor appear as the string "0".

`Number.parseFloat` followed by `toFixed(2)` is modelled over exact scaled
decimals (an integer mantissa and a decimal scale): the decimal literals this
program feeds through the pipeline are handled exactly, and the rounding rule
is the ECMAScript `toFixed` rule (round the absolute value half-up to cents,
then prefix the sign).  Whitespace-, exponent- and Infinity-shaped inputs to
`parseFloat` do not arise in the program and are out of the model.
-/

/-- Mirror of the `FieldType` enum of src/index.js. -/
inductive FieldType where
  | TEXT
  | DOLLAR
  | PERCENT
  | NUMBER
  | DECIMAL
  deriving DecidableEq

/-- Mirror of class `CommentField`: key, label, value slot, enabled flag, type.
The constructor of the class always sets `enabled` to `false`; see
`mkCommentField` below. -/
structure CommentField where
  key : String
  label : String
  value : String
  enabled : Bool
  type : FieldType
  deriving DecidableEq

/-- Exact scaled-decimal stand-in for the JavaScript number produced by
`Number.parseFloat`: the value is `mant / 10 ^ scale`. -/
structure JSNumber where
  mant : Int
  scale : Nat
  deriving DecidableEq

/-- Numeric value of a list of decimal digit characters. -/
def digitsVal (cs : List Char) : Nat :=
  cs.foldl (fun a c => a * 10 + (c.toNat - 48)) 0

/-- Model of `Number.parseFloat` on plain decimal literals: an optional sign,
then digits, then an optional fraction after a dot; trailing junk is ignored
(longest valid prefix), and `none` stands for `NaN`. -/
def parseFloat (s : String) : Option JSNumber :=
  let cs := s.data
  let neg : Bool := cs.head? == some '-'
  let cs := if cs.head? == some '-' || cs.head? == some '+' then cs.tail else cs
  let intPart := cs.takeWhile Char.isDigit
  let rest := cs.dropWhile Char.isDigit
  let fracPart : List Char :=
    match rest with
    | '.' :: r => r.takeWhile Char.isDigit
    | _ => []
  if intPart.isEmpty && fracPart.isEmpty then none
  else
    let mag : Nat := digitsVal intPart * 10 ^ fracPart.length + digitsVal fracPart
    some { mant := if neg then -(mag : Int) else (mag : Int), scale := fracPart.length }

/-- Two-digit rendering of a number of cents below 100. -/
def pad2 (n : Nat) : String :=
  (if n < 10 then "0" else "") ++ toString n

/-- Model of `x.toFixed(2)` on the result of `parseFloat` (`none` renders as
"NaN", as in JavaScript).  Following the ECMAScript algorithm, the absolute
value is rounded half-up to a whole number of cents and the sign is prefixed.
The number of cents is `⌊|mant| * 100 / 10 ^ scale + 1 / 2⌋`, computed here by
integer division. -/
def toFixed2 : Option JSNumber → String
  | none => "NaN"
  | some n =>
    let p := 10 ^ n.scale
    let cents : Nat := (200 * n.mant.natAbs + p) / (2 * p)
    (if n.mant < 0 then "-" else "") ++ toString (cents / 100) ++ "." ++ pad2 (cents % 100)

/-- Mirror of `CommentField.GetValue`: format the value slot according to the
field's type. -/
def CommentField.GetValue (f : CommentField) : String :=
  match f.type with
  | .DOLLAR => "$" ++ toFixed2 (parseFloat f.value)
  | .PERCENT => f.value ++ "%"
  | _ => f.value

/-- Enumeration of the thirteen property names of the `this.fields` object
literal of the `CommentData` constructor. -/
inductive FieldKey where
  | summaryValue
  | loanNameValue
  | loanAmountValue
  | loanTermValue
  | interestRateValue
  | monthlyIncomeValue
  | incomeVerificationValue
  | dtiBeforeValue
  | dtiAfterValue
  | discretionaryIncomeValue
  | creditScoreValue
  | recommendationValue
  | writtenRecValue
  deriving DecidableEq

/-- Insertion order of the `this.fields` object literal. -/
def FieldKey.all : List FieldKey :=
  [.summaryValue, .loanNameValue, .loanAmountValue, .loanTermValue, .interestRateValue,
   .monthlyIncomeValue, .incomeVerificationValue, .dtiBeforeValue, .dtiAfterValue,
   .discretionaryIncomeValue, .creditScoreValue, .recommendationValue, .writtenRecValue]

/-- String key of each field, as written in the object literal. -/
def keyStr : FieldKey → String
  | .summaryValue => "summary-value"
  | .loanNameValue => "loan-name-value"
  | .loanAmountValue => "loan-amount-value"
  | .loanTermValue => "loan-term-value"
  | .interestRateValue => "interest-rate-value"
  | .monthlyIncomeValue => "monthly-income-value"
  | .incomeVerificationValue => "income-verification-value"
  | .dtiBeforeValue => "dti-before-value"
  | .dtiAfterValue => "dti-after-value"
  | .discretionaryIncomeValue => "discretionary-income-value"
  | .creditScoreValue => "credit-score-value"
  | .recommendationValue => "recommendation-value"
  | .writtenRecValue => "written-rec-value"

/-- Model of property lookup on the `this.fields` object: which of the fixed
thirteen property names a string denotes, if any.  This also models the
JavaScript `in` test used by the mutators and by `#printAttribute`. -/
def parseKey (s : String) : Option FieldKey :=
  FieldKey.all.find? (fun fk => s == keyStr fk)

/-- Model of the JavaScript `key in this.fields` test. -/
def hasKey (s : String) : Bool := (parseKey s).isSome

/-- Field lookup by string key. -/
def getField (fs : FieldKey → CommentField) (s : String) : Option CommentField :=
  (parseKey s).map fs

/-- Mirror of the `this.sections` enum. -/
inductive CommentSection where
  | LOAN_INFO
  | APPLICANT_INFO
  | RECOMMENDATION
  deriving DecidableEq

/-- Mirror of class `CommentData`: the field registry together with the
padding cache and the border configuration constants. -/
structure CommentData where
  fields : FieldKey → CommentField
  keyValPadding : Nat
  topBorderChar : String
  sideBorderChar : String
  cornerBorderChar : String
  borderLRPadding : Nat

/-- Mirror of the `CommentField` constructor: `enabled` always starts `false`. -/
def mkCommentField (key label value : String) (type : FieldType) : CommentField :=
  { key := key, label := label, value := value, enabled := false, type := type }

/-- Mirror of the `this.fields` object literal of the `CommentData`
constructor (numeric initial values appear as their string coercion "0"). -/
def initFields : FieldKey → CommentField
  | .summaryValue => mkCommentField "summary-value" "" "" .TEXT
  | .loanNameValue => mkCommentField "loan-name-value" "Loan Name" "" .TEXT
  | .loanAmountValue => mkCommentField "loan-amount-value" "Loan Amount" "0" .DOLLAR
  | .loanTermValue => mkCommentField "loan-term-value" "Loan Term" "" .TEXT
  | .interestRateValue => mkCommentField "interest-rate-value" "Interest Rate" "0" .PERCENT
  | .monthlyIncomeValue => mkCommentField "monthly-income-value" "Monthly Income" "0" .DOLLAR
  | .incomeVerificationValue => mkCommentField "income-verification-value" "Income Verification Src" "" .TEXT
  | .dtiBeforeValue => mkCommentField "dti-before-value" "DTI Before" "0" .PERCENT
  | .dtiAfterValue => mkCommentField "dti-after-value" "DTI After" "0" .PERCENT
  | .discretionaryIncomeValue => mkCommentField "discretionary-income-value" "Discretionary Income" "0" .DOLLAR
  | .creditScoreValue => mkCommentField "credit-score-value" "Credit Score" "0" .NUMBER
  | .recommendationValue => mkCommentField "recommendation-value" "Recommendation" "" .TEXT
  | .writtenRecValue => mkCommentField "written-rec-value" "" "" .TEXT

/-- Mirror of the `CommentData` constructor. -/
def CommentData.init : CommentData :=
  { fields := initFields
    keyValPadding := 0
    topBorderChar := "-"
    sideBorderChar := "|"
    cornerBorderChar := "+"
    borderLRPadding := 1 }

/-- Body of `#updateKeyValPadding`: fold over the fields in insertion order,
keeping the largest label length among enabled fields (seed 0). -/
def computeKeyValPadding (fs : FieldKey → CommentField) : Nat :=
  (FieldKey.all.map fs).foldl
    (fun pad f => if f.enabled then (if f.label.length > pad then f.label.length else pad) else pad) 0

/-- Mirror of `CommentData.#updateKeyValPadding`. -/
def CommentData.updateKeyValPadding (cd : CommentData) : CommentData :=
  { cd with keyValPadding := computeKeyValPadding cd.fields }

/-- Mirror of `CommentData.#sectionIsEnabled`, including the duplicated
`monthly-income-value` disjunct of the source. -/
def CommentData.sectionIsEnabled (cd : CommentData) : CommentSection → Bool
  | .LOAN_INFO =>
      (cd.fields .loanNameValue).enabled
        || (cd.fields .loanAmountValue).enabled
        || (cd.fields .loanTermValue).enabled
        || (cd.fields .interestRateValue).enabled
  | .APPLICANT_INFO =>
      (cd.fields .monthlyIncomeValue).enabled
        || (cd.fields .incomeVerificationValue).enabled
        || (cd.fields .monthlyIncomeValue).enabled
        || (cd.fields .dtiBeforeValue).enabled
        || (cd.fields .dtiAfterValue).enabled
        || (cd.fields .discretionaryIncomeValue).enabled
        || (cd.fields .creditScoreValue).enabled
  | .RECOMMENDATION =>
      (cd.fields .recommendationValue).enabled
        || (cd.fields .writtenRecValue).enabled

/-- Concatenation of `n` copies of a string (the character-append loops of the
source). -/
def strRepeat (s : String) (n : Nat) : String :=
  String.join (List.replicate n s)

/-- Run of `n` space characters. -/
def spaces (n : Nat) : String :=
  String.mk (List.replicate n ' ')

/-- Mirror of `CommentData.#createBorder`. -/
def CommentData.createBorder (cd : CommentData) (text : String) : String :=
  let TBSize := text.length + cd.borderLRPadding * 2
  cd.cornerBorderChar ++ strRepeat cd.topBorderChar TBSize ++ cd.cornerBorderChar ++ "\n"
    ++ cd.sideBorderChar ++ spaces cd.borderLRPadding ++ text
    ++ spaces cd.borderLRPadding ++ cd.sideBorderChar ++ "\n"
    ++ cd.cornerBorderChar ++ strRepeat cd.topBorderChar TBSize ++ cd.cornerBorderChar

/-- Mirror of `CommentData.#printAttribute`. -/
def CommentData.printAttribute (cd : CommentData) (attributeName : String) : String :=
  match getField cd.fields attributeName with
  | none => ""
  | some f =>
    if !f.enabled then ""
    else f.label ++ ": " ++ spaces (cd.keyValPadding - f.label.length) ++ f.GetValue ++ "\n"

/-- Mirror of `CommentData.updateAttrVal`: unknown keys are a no-op, known
keys get their value slot overwritten and the padding cache refreshed. -/
def CommentData.updateAttrVal (cd : CommentData) (attributeName value : String) : CommentData :=
  match parseKey attributeName with
  | none => cd
  | some fk =>
      CommentData.updateKeyValPadding
        { cd with fields := Function.update cd.fields fk { cd.fields fk with value := value } }

/-- Model of the regex replacement of `updateAttrEnabled`: a trailing
"-enabled" suffix is replaced by "-value", anything else is left unchanged. -/
def replaceEnabledSuffix (s : String) : String :=
  if "-enabled".data.isSuffixOf s.data then
    String.mk (s.data.take (s.data.length - 8)) ++ "-value"
  else s

/-- Mirror of `CommentData.updateAttrEnabled`: derive the field key by the
suffix substitution, no-op when the derived key is unknown, otherwise set the
enabled flag and refresh the padding cache. -/
def CommentData.updateAttrEnabled (cd : CommentData) (attributeName : String) (enabled : Bool) : CommentData :=
  match parseKey (replaceEnabledSuffix attributeName) with
  | none => cd
  | some fk =>
      CommentData.updateKeyValPadding
        { cd with fields := Function.update cd.fields fk { cd.fields fk with enabled := enabled } }

/-- Body of `generateComment` after its initial `#updateKeyValPadding` call:
the sequential conditional appends of the source, line by line. -/
def CommentData.renderComment (cd : CommentData) : String :=
  let result := ""
  let result :=
    if (cd.fields .summaryValue).enabled then
      result ++ (cd.fields .summaryValue).value ++ "\n\n"
    else result
  let result :=
    if cd.sectionIsEnabled .LOAN_INFO then
      result ++ cd.createBorder "Loan Information" ++ "\n"
        ++ cd.printAttribute "loan-name-value"
        ++ cd.printAttribute "loan-amount-value"
        ++ cd.printAttribute "loan-term-value"
        ++ cd.printAttribute "interest-rate-value"
        ++ "\n"
    else result
  let result :=
    if cd.sectionIsEnabled .APPLICANT_INFO then
      result ++ cd.createBorder "Applicant Information" ++ "\n"
        ++ cd.printAttribute "monthly-income-value"
        ++ cd.printAttribute "income-verification-value"
        ++ cd.printAttribute "dti-before-value"
        ++ cd.printAttribute "dti-after-value"
        ++ cd.printAttribute "discretionary-income-value"
        ++ cd.printAttribute "credit-score-value"
        ++ "\n"
    else result
  let result :=
    if cd.sectionIsEnabled .RECOMMENDATION then
      let r := result ++ cd.createBorder "Recommendation" ++ "\n"
        ++ cd.printAttribute "recommendation-value"
      let r :=
        if (cd.fields .writtenRecValue).enabled then
          r ++ (cd.fields .writtenRecValue).value
        else r
      r ++ "\n"
    else result
  result

/-- Mirror of `CommentData.generateComment`: refresh the padding cache, then
render; the returned second component is the mutated object state. -/
def CommentData.generateComment (cd : CommentData) : String × CommentData :=
  let cd2 := cd.updateKeyValPadding
  (cd2.renderComment, cd2)

/-- Display title of each section. -/
def sectionTitle : CommentSection → String
  | .LOAN_INFO => "Loan Information"
  | .APPLICANT_INFO => "Applicant Information"
  | .RECOMMENDATION => "Recommendation"

/-- Fixed member order of each section. -/
def sectionMemberKeys : CommentSection → List FieldKey
  | .LOAN_INFO => [.loanNameValue, .loanAmountValue, .loanTermValue, .interestRateValue]
  | .APPLICANT_INFO =>
      [.monthlyIncomeValue, .incomeVerificationValue, .dtiBeforeValue, .dtiAfterValue,
       .discretionaryIncomeValue, .creditScoreValue]
  | .RECOMMENDATION => [.recommendationValue, .writtenRecValue]

/-- Summary block of the output: raw summary value and two newlines when the
summary field is enabled, nothing otherwise. -/
def summaryChunk (cd : CommentData) : String :=
  if (cd.fields .summaryValue).enabled then (cd.fields .summaryValue).value ++ "\n\n" else ""

/-- Text a section contributes to the output as claim C1 states it: heading
box, newline, then the attribute line of every member field (disabled members
contribute the empty string), then a closing newline; nothing when the
section is inactive. -/
def claimedSectionText (cd : CommentData) (s : CommentSection) : String :=
  if cd.sectionIsEnabled s then
    cd.createBorder (sectionTitle s) ++ "\n"
      ++ String.join ((sectionMemberKeys s).map (fun fk => cd.printAttribute (keyStr fk)))
      ++ "\n"
  else ""

/-- Whole output as claim C1 states it. -/
def claimedRender (cd : CommentData) : String :=
  summaryChunk cd ++ claimedSectionText cd .LOAN_INFO ++ claimedSectionText cd .APPLICANT_INFO
    ++ claimedSectionText cd .RECOMMENDATION

/-- Member lines of a section, with the special treatment of the
written-recommendation member: its raw value, not an attribute line. -/
def sectionBody (cd : CommentData) : CommentSection → String
  | .RECOMMENDATION =>
      cd.printAttribute "recommendation-value"
        ++ (if (cd.fields .writtenRecValue).enabled then (cd.fields .writtenRecValue).value else "")
  | s => String.join ((sectionMemberKeys s).map (fun fk => cd.printAttribute (keyStr fk)))

/-- Text a section actually contributes to the output. -/
def sectionText (cd : CommentData) (s : CommentSection) : String :=
  if cd.sectionIsEnabled s then
    cd.createBorder (sectionTitle s) ++ "\n" ++ sectionBody cd s ++ "\n"
  else ""

/-- Maximum label length over the currently enabled fields, stated as in the
spec (0 when no field is enabled). -/
def specMaxEnabledLabelLen (fs : FieldKey → CommentField) : Nat :=
  ((FieldKey.all.map fs).filter (fun f => f.enabled)).foldr (fun f m => max f.label.length m) 0

theorem generateComment_fst (cd : CommentData) :
    (cd.generateComment).1 = cd.updateKeyValPadding.renderComment := rfl

theorem generateComment_snd (cd : CommentData) :
    (cd.generateComment).2 = cd.updateKeyValPadding := rfl

theorem updateKeyValPadding_fields (cd : CommentData) :
    (cd.updateKeyValPadding).fields = cd.fields := rfl

theorem sectionIsEnabled_updateKeyValPadding (cd : CommentData) (s : CommentSection) :
    cd.updateKeyValPadding.sectionIsEnabled s = cd.sectionIsEnabled s := by
  cases s <;> rfl

set_option maxHeartbeats 3200000 in
theorem renderComment_decomp (cd : CommentData) :
    cd.renderComment
      = summaryChunk cd ++ sectionText cd .LOAN_INFO ++ sectionText cd .APPLICANT_INFO
          ++ sectionText cd .RECOMMENDATION := by
  simp only [CommentData.renderComment, summaryChunk, sectionText, sectionBody, sectionTitle,
    sectionMemberKeys, List.map, String.join, List.foldl, keyStr]
  split_ifs <;>
    simp_all [String.append_assoc, String.empty_append, String.append_empty]

theorem foldl_padding (l : List CommentField) (a : Nat) :
    l.foldl
        (fun pad f => if f.enabled then (if f.label.length > pad then f.label.length else pad) else pad)
        a
      = max a ((l.filter (fun f => f.enabled)).foldr (fun f m => max f.label.length m) 0) := by
  induction l generalizing a with
  | nil => simp
  | cons f l ih =>
      cases hf : f.enabled with
      | false => simp [hf, ih]
      | true =>
          simp only [List.foldl_cons, List.filter_cons, hf, if_true, List.foldr_cons, ih]
          split <;> omega

theorem computeKeyValPadding_eq (fs : FieldKey → CommentField) :
    computeKeyValPadding fs = specMaxEnabledLabelLen fs := by
  unfold computeKeyValPadding specMaxEnabledLabelLen
  rw [foldl_padding]
  omega

theorem parseKey_keyStr (fk : FieldKey) : parseKey (keyStr fk) = some fk := by
  cases fk <;> decide

theorem parseKey_eq_some (s : String) (fk : FieldKey) (h : parseKey s = some fk) :
    s = keyStr fk := by
  unfold parseKey at h
  have h2 := @List.find?_some FieldKey (fun fk => s == keyStr fk) fk FieldKey.all h
  exact eq_of_beq h2

theorem getField_update (fs : FieldKey → CommentField) (fk : FieldKey) (g : CommentField)
    (s : String) :
    getField (Function.update fs fk g) s
      = if parseKey s = some fk then some g else getField fs s := by
  unfold getField
  cases h : parseKey s with
  | none => simp
  | some fk2 =>
      by_cases he : fk2 = fk
      · subst he
        simp [Function.update_same]
      · simp [Function.update_noteq he, he]

theorem sectionIsEnabled_eq_any (cd : CommentData) (s : CommentSection) :
    cd.sectionIsEnabled s = (sectionMemberKeys s).any (fun fk => (cd.fields fk).enabled) := by
  cases s with
  | LOAN_INFO => simp [CommentData.sectionIsEnabled, sectionMemberKeys, Bool.or_assoc]
  | APPLICANT_INFO =>
      cases ha : (cd.fields FieldKey.monthlyIncomeValue).enabled <;>
        simp [CommentData.sectionIsEnabled, sectionMemberKeys, ha, Bool.or_assoc]
  | RECOMMENDATION => simp [CommentData.sectionIsEnabled, sectionMemberKeys, Bool.or_assoc]

/-- Concrete state: summary, loan-name and loan-amount enabled with values
set, everything else untouched. -/
def demoState : CommentData :=
  ((((((CommentData.init.updateAttrEnabled "summary-enabled" true).updateAttrVal
      "summary-value" "Looks good").updateAttrEnabled "loan-name-enabled" true).updateAttrVal
      "loan-name-value" "Auto Loan").updateAttrEnabled "loan-amount-enabled" true).updateAttrVal
      "loan-amount-value" "1000")

/-- Concrete state: recommendation and written recommendation enabled with
values set, everything else untouched. -/
def wrecState : CommentData :=
  (((CommentData.init.updateAttrEnabled "recommendation-enabled" true).updateAttrVal
      "recommendation-value" "Approve").updateAttrEnabled "written-rec-enabled" true).updateAttrVal
      "written-rec-value" "Strong applicant."

/-- The field stored at "loan-name-value" in `demoState`. -/
def loanNameDemo : CommentField :=
  { key := "loan-name-value", label := "Loan Name", value := "Auto Loan", enabled := true,
    type := FieldType.TEXT }

/-- Claim C1 as frozen is false on the code: with the written-recommendation
field enabled, the Recommendation section does not contain that member's
attribute line (label, colon, padding, newline) but its raw value, so the
output differs from the claimed per-section layout at this concrete state. -/
theorem claim1_counterexample :
    wrecState.updateKeyValPadding.sectionIsEnabled CommentSection.RECOMMENDATION = true
    ∧ (wrecState.generateComment).1 ≠ claimedRender wrecState.updateKeyValPadding := by
  constructor
  · decide
  · decide

/-- Claim C1 amended: for every registry state the output is exactly the
summary block followed by the three sections in fixed order, where an active
section contributes its bordered heading box, a newline, the attribute line
of each enabled member field in fixed member order — except the
written-recommendation member of the Recommendation section, whose raw value
is appended instead of an attribute line — and a trailing newline, with
nothing else in between, and an inactive section contributes nothing. -/
theorem claim1_amended (cd : CommentData) :
    (cd.generateComment).1
      = summaryChunk cd.updateKeyValPadding
        ++ sectionText cd.updateKeyValPadding .LOAN_INFO
        ++ sectionText cd.updateKeyValPadding .APPLICANT_INFO
        ++ sectionText cd.updateKeyValPadding .RECOMMENDATION := by
  rw [generateComment_fst, renderComment_decomp]

/-- Claim C2: at every render the padding cache equals the maximum label
length over the currently enabled fields (0 when none), and the attribute
line of a field present in the registry is its label, ": ", the padding
spaces, the formatted value and a newline when enabled, the empty string when
disabled, and the empty string for keys absent from the registry. -/
theorem claim2_padding_and_attribute (cd : CommentData) (k : String) (f : CommentField)
    (hf : getField (cd.generateComment).2.fields k = some f) :
    (cd.generateComment).2.keyValPadding = specMaxEnabledLabelLen (cd.generateComment).2.fields
    ∧ (f.enabled = true →
        (cd.generateComment).2.printAttribute k
          = f.label ++ ": " ++ spaces ((cd.generateComment).2.keyValPadding - f.label.length)
              ++ f.GetValue ++ "\n")
    ∧ (f.enabled = false → (cd.generateComment).2.printAttribute k = "")
    ∧ (∀ k2, getField (cd.generateComment).2.fields k2 = none →
        (cd.generateComment).2.printAttribute k2 = "") := by
  refine ⟨computeKeyValPadding_eq cd.fields, ?_, ?_, ?_⟩
  · intro he
    simp [CommentData.printAttribute, hf, he, String.append_assoc]
  · intro he
    simp [CommentData.printAttribute, hf, he]
  · intro k2 h2
    simp [CommentData.printAttribute, h2]

theorem claim2_witness :
    (demoState.generateComment).2.keyValPadding
        = specMaxEnabledLabelLen (demoState.generateComment).2.fields
    ∧ (demoState.generateComment).2.printAttribute "loan-name-value"
        = loanNameDemo.label ++ ": "
            ++ spaces ((demoState.generateComment).2.keyValPadding - loanNameDemo.label.length)
            ++ loanNameDemo.GetValue ++ "\n" := by
  have h := claim2_padding_and_attribute demoState "loan-name-value" loanNameDemo (by decide)
  exact ⟨h.1, h.2.1 (by decide)⟩

/-- Claim C3: the value formatter depends only on the type and the value
slot, DOLLAR formats "1234.5" as "$1234.50" and "0" as "$0.00", PERCENT
appends a percent sign verbatim (so "12.5" becomes "12.5%"), and TEXT and
NUMBER return the raw value unchanged. -/
theorem claim3_formatter :
    (∀ f : CommentField, f.GetValue = (mkCommentField "" "" f.value f.type).GetValue)
    ∧ (mkCommentField "" "" "1234.5" .DOLLAR).GetValue = "$1234.50"
    ∧ (mkCommentField "" "" "0" .DOLLAR).GetValue = "$0.00"
    ∧ (mkCommentField "" "" "12.5" .PERCENT).GetValue = "12.5%"
    ∧ (∀ v, (mkCommentField "" "" v .PERCENT).GetValue = v ++ "%")
    ∧ (∀ v, (mkCommentField "" "" v .TEXT).GetValue = v)
    ∧ (∀ v, (mkCommentField "" "" v .NUMBER).GetValue = v) := by
  refine ⟨?_, by decide, by decide, by decide, fun v => rfl, fun v => rfl, fun v => rfl⟩
  intro f
  rcases f with ⟨k, l, v, e, t⟩
  cases t <;> rfl

/-- Claim C4: whenever the Recommendation section is active, the output ends
with the Recommendation heading box, a newline, the attribute line for the
recommendation field, then — exactly when the written-recommendation field is
enabled — that field's raw value with no label and no padding, then the
section's trailing newline. -/
theorem claim4_written_recommendation (cd : CommentData)
    (hrec : cd.sectionIsEnabled CommentSection.RECOMMENDATION = true) :
    (cd.generateComment).1
      = summaryChunk cd.updateKeyValPadding
        ++ sectionText cd.updateKeyValPadding .LOAN_INFO
        ++ sectionText cd.updateKeyValPadding .APPLICANT_INFO
        ++ (cd.updateKeyValPadding.createBorder "Recommendation" ++ "\n"
            ++ cd.updateKeyValPadding.printAttribute "recommendation-value"
            ++ (if (cd.fields .writtenRecValue).enabled then (cd.fields .writtenRecValue).value
                else "")
            ++ "\n") := by
  rw [generateComment_fst, renderComment_decomp]
  have hrec2 : cd.updateKeyValPadding.sectionIsEnabled CommentSection.RECOMMENDATION = true := by
    rw [sectionIsEnabled_updateKeyValPadding]
    exact hrec
  simp [sectionText, sectionBody, sectionTitle, hrec2, updateKeyValPadding_fields,
    String.append_assoc]

theorem claim4_witness :
    wrecState.sectionIsEnabled CommentSection.RECOMMENDATION = true
    ∧ (wrecState.generateComment).1
        = summaryChunk wrecState.updateKeyValPadding
          ++ sectionText wrecState.updateKeyValPadding .LOAN_INFO
          ++ sectionText wrecState.updateKeyValPadding .APPLICANT_INFO
          ++ (wrecState.updateKeyValPadding.createBorder "Recommendation" ++ "\n"
              ++ wrecState.updateKeyValPadding.printAttribute "recommendation-value"
              ++ (if (wrecState.fields .writtenRecValue).enabled then
                    (wrecState.fields .writtenRecValue).value
                  else "")
              ++ "\n") :=
  ⟨by decide, claim4_written_recommendation wrecState (by decide)⟩

/-- Claim C5: a section is active exactly when some member field is enabled
(whatever the values), an all-disabled section contributes the empty string,
and the whole output is the summary block plus the three per-section
contributions in fixed order. -/
theorem claim5_section_activity (cd : CommentData) (s : CommentSection) :
    cd.sectionIsEnabled s = (sectionMemberKeys s).any (fun fk => (cd.fields fk).enabled)
    ∧ ((sectionMemberKeys s).any (fun fk => (cd.fields fk).enabled) = false →
        sectionText cd.updateKeyValPadding s = "")
    ∧ (cd.generateComment).1
        = summaryChunk cd.updateKeyValPadding
          ++ sectionText cd.updateKeyValPadding .LOAN_INFO
          ++ sectionText cd.updateKeyValPadding .APPLICANT_INFO
          ++ sectionText cd.updateKeyValPadding .RECOMMENDATION := by
  refine ⟨sectionIsEnabled_eq_any cd s, ?_, by rw [generateComment_fst, renderComment_decomp]⟩
  intro hno
  have hoff : cd.updateKeyValPadding.sectionIsEnabled s = false := by
    rw [sectionIsEnabled_updateKeyValPadding, sectionIsEnabled_eq_any]
    exact hno
  simp [sectionText, hoff]

theorem claim5_witness :
    demoState.sectionIsEnabled CommentSection.APPLICANT_INFO
        = (sectionMemberKeys CommentSection.APPLICANT_INFO).any
            (fun fk => (demoState.fields fk).enabled)
    ∧ sectionText demoState.updateKeyValPadding CommentSection.APPLICANT_INFO = ""
    ∧ (demoState.generateComment).1
        = summaryChunk demoState.updateKeyValPadding
          ++ sectionText demoState.updateKeyValPadding .LOAN_INFO
          ++ sectionText demoState.updateKeyValPadding .APPLICANT_INFO
          ++ sectionText demoState.updateKeyValPadding .RECOMMENDATION := by
  have h := claim5_section_activity demoState CommentSection.APPLICANT_INFO
  exact ⟨h.1, h.2.1 (by decide), h.2.2⟩

/-- Claim C6: mutations with unknown keys leave the state untouched (and,
being total functions, raise nothing), and when the derived field key of a
control key is present, `updateAttrEnabled` sets exactly that field's enabled
flag, leaving every other key's field as it was. -/
theorem claim6_unknown_key_noop (cd : CommentData) (k v : String) (b : Bool) :
    (hasKey k = false → cd.updateAttrVal k v = cd)
    ∧ (hasKey (replaceEnabledSuffix k) = false → cd.updateAttrEnabled k b = cd)
    ∧ (hasKey (replaceEnabledSuffix k) = true →
        (getField (cd.updateAttrEnabled k b).fields (replaceEnabledSuffix k)).map
            CommentField.enabled = some b
        ∧ ∀ k2, k2 ≠ replaceEnabledSuffix k →
            getField (cd.updateAttrEnabled k b).fields k2 = getField cd.fields k2) := by
  refine ⟨?_, ?_, ?_⟩
  · intro h
    unfold CommentData.updateAttrVal
    cases hp : parseKey k with
    | none => rfl
    | some fk =>
        unfold hasKey at h
        rw [hp] at h
        simp at h
  · intro h
    unfold CommentData.updateAttrEnabled
    cases hp : parseKey (replaceEnabledSuffix k) with
    | none => rfl
    | some fk =>
        unfold hasKey at h
        rw [hp] at h
        simp at h
  · intro h
    cases hp : parseKey (replaceEnabledSuffix k) with
    | none =>
        unfold hasKey at h
        rw [hp] at h
        simp at h
    | some fk =>
        have hfields : (cd.updateAttrEnabled k b).fields
            = Function.update cd.fields fk { cd.fields fk with enabled := b } := by
          simp [CommentData.updateAttrEnabled, hp, CommentData.updateKeyValPadding]
        constructor
        · rw [hfields, getField_update, if_pos hp]
          rfl
        · intro k2 hk2
          have hne : ¬ parseKey k2 = some fk := by
            intro hc
            exact hk2 (by rw [parseKey_eq_some k2 fk hc, ← parseKey_eq_some _ fk hp])
          rw [hfields, getField_update, if_neg hne]

theorem claim6_witness :
    CommentData.init.updateAttrVal "nope" "x" = CommentData.init
    ∧ CommentData.init.updateAttrEnabled "nope-enabled" true = CommentData.init
    ∧ (getField (CommentData.init.updateAttrEnabled "summary-enabled" true).fields
          "summary-value").map CommentField.enabled = some true
    ∧ getField (CommentData.init.updateAttrEnabled "summary-enabled" true).fields
          "loan-name-value"
        = getField CommentData.init.fields "loan-name-value" := by
  have h1 := claim6_unknown_key_noop CommentData.init "nope" "x" true
  have h2 := claim6_unknown_key_noop CommentData.init "nope-enabled" "x" true
  have h3 := claim6_unknown_key_noop CommentData.init "summary-enabled" "x" true
  exact ⟨h1.1 (by decide), h2.2.1 (by decide), (h3.2.2 (by decide)).1,
    (h3.2.2 (by decide)).2 "loan-name-value" (by decide)⟩

/-- Claim C7: rendering twice with no mutation in between yields identical
strings, although the second call recomputes the padding cache on the state
returned by the first. -/
theorem claim7_idempotent_render (cd : CommentData) :
    ((cd.generateComment).2.generateComment).1 = (cd.generateComment).1 := rfl

/-- Claim C8: for a known key, `updateAttrVal` changes only that field's
value slot (besides the padding cache): other keys are untouched, the border
configuration is untouched, and `updateAttrEnabled` never changes any
field's key, label, value or type, nor any field other than its target. -/
theorem claim8_frame_conditions (cd : CommentData) (k v k2 : String) (b : Bool)
    (hk : hasKey k = true) :
    (k2 ≠ k → getField (cd.updateAttrVal k v).fields k2 = getField cd.fields k2)
    ∧ getField (cd.updateAttrVal k v).fields k
        = (getField cd.fields k).map (fun f => { f with value := v })
    ∧ (cd.updateAttrVal k v).topBorderChar = cd.topBorderChar
    ∧ (cd.updateAttrVal k v).sideBorderChar = cd.sideBorderChar
    ∧ (cd.updateAttrVal k v).cornerBorderChar = cd.cornerBorderChar
    ∧ (cd.updateAttrVal k v).borderLRPadding = cd.borderLRPadding
    ∧ (∀ k3, (getField (cd.updateAttrEnabled k b).fields k3).map
          (fun f => (f.key, f.label, f.value, f.type))
        = (getField cd.fields k3).map (fun f => (f.key, f.label, f.value, f.type)))
    ∧ (∀ k3, k3 ≠ replaceEnabledSuffix k →
        getField (cd.updateAttrEnabled k b).fields k3 = getField cd.fields k3) := by
  unfold hasKey at hk
  cases hp : parseKey k with
  | none =>
      rw [hp] at hk
      simp at hk
  | some fk =>
  have hfieldsV : (cd.updateAttrVal k v).fields
      = Function.update cd.fields fk { cd.fields fk with value := v } := by
    simp [CommentData.updateAttrVal, hp, CommentData.updateKeyValPadding]
  have hV : cd.updateAttrVal k v
      = CommentData.updateKeyValPadding
          { cd with fields := Function.update cd.fields fk { cd.fields fk with value := v } } := by
    simp [CommentData.updateAttrVal, hp]
  refine ⟨?_, ?_, by rw [hV]; rfl, by rw [hV]; rfl, by rw [hV]; rfl, by rw [hV]; rfl, ?_, ?_⟩
  · intro hne
    have hne2 : ¬ parseKey k2 = some fk := by
      intro hc
      exact hne (by rw [parseKey_eq_some k2 fk hc, ← parseKey_eq_some _ fk hp])
    rw [hfieldsV, getField_update, if_neg hne2]
  · rw [hfieldsV, getField_update, if_pos hp]
    unfold getField
    rw [hp]
    rfl
  · intro k3
    cases hq : parseKey (replaceEnabledSuffix k) with
    | none =>
        have hE : cd.updateAttrEnabled k b = cd := by
          simp [CommentData.updateAttrEnabled, hq]
        rw [hE]
    | some fk2 =>
        have hfieldsE : (cd.updateAttrEnabled k b).fields
            = Function.update cd.fields fk2 { cd.fields fk2 with enabled := b } := by
          simp [CommentData.updateAttrEnabled, hq, CommentData.updateKeyValPadding]
        rw [hfieldsE, getField_update]
        by_cases hc : parseKey k3 = some fk2
        · rw [if_pos hc]
          unfold getField
          rw [hc]
          rfl
        · rw [if_neg hc]
  · intro k3 hk3
    cases hq : parseKey (replaceEnabledSuffix k) with
    | none =>
        have hE : cd.updateAttrEnabled k b = cd := by
          simp [CommentData.updateAttrEnabled, hq]
        rw [hE]
    | some fk2 =>
        have hfieldsE : (cd.updateAttrEnabled k b).fields
            = Function.update cd.fields fk2 { cd.fields fk2 with enabled := b } := by
          simp [CommentData.updateAttrEnabled, hq, CommentData.updateKeyValPadding]
        have hne2 : ¬ parseKey k3 = some fk2 := by
          intro hc
          exact hk3 (by rw [parseKey_eq_some k3 fk2 hc, ← parseKey_eq_some _ fk2 hq])
        rw [hfieldsE, getField_update, if_neg hne2]

theorem claim8_witness :
    getField (CommentData.init.updateAttrVal "loan-name-value" "Auto").fields "summary-value"
        = getField CommentData.init.fields "summary-value"
    ∧ getField (CommentData.init.updateAttrVal "loan-name-value" "Auto").fields "loan-name-value"
        = (getField CommentData.init.fields "loan-name-value").map
            (fun f => { f with value := "Auto" })
    ∧ (CommentData.init.updateAttrVal "loan-name-value" "Auto").topBorderChar
        = CommentData.init.topBorderChar
    ∧ (getField (CommentData.init.updateAttrEnabled "loan-name-value" true).fields
          "dti-before-value").map (fun f => (f.key, f.label, f.value, f.type))
        = (getField CommentData.init.fields "dti-before-value").map
            (fun f => (f.key, f.label, f.value, f.type))
    ∧ getField (CommentData.init.updateAttrEnabled "loan-name-value" true).fields "summary-value"
        = getField CommentData.init.fields "summary-value" := by
  have h := claim8_frame_conditions CommentData.init "loan-name-value" "Auto" "summary-value" true
    (by decide)
  exact ⟨h.1 (by decide), h.2.1, h.2.2.1, h.2.2.2.2.2.2.1 "dti-before-value",
    h.2.2.2.2.2.2.2 "summary-value" (by decide)⟩

/-- Claim C9: every field of a freshly constructed registry is disabled, so
the very first render returns the empty string. -/
theorem claim9_initial_render_empty :
    (∀ fk, ((CommentData.init).fields fk).enabled = false)
    ∧ (CommentData.init.generateComment).1 = "" := by
  constructor
  · intro fk
    cases fk <;> rfl
  · decide

/-- Claim C10: the suffix substitution leaves keys without a trailing
"-enabled" unchanged, so calling `updateAttrEnabled` directly with the field
key "summary-value" sets that field's enabled flag instead of being a no-op. -/
theorem claim10_suffix_substitution (cd : CommentData) (k : String) (b : Bool)
    (hk : "-enabled".data.isSuffixOf k.data = false) :
    replaceEnabledSuffix k = k
    ∧ ((cd.updateAttrEnabled "summary-value" b).fields FieldKey.summaryValue).enabled = b := by
  constructor
  · simp [replaceEnabledSuffix, hk]
  · simp [CommentData.updateAttrEnabled,
      show parseKey (replaceEnabledSuffix "summary-value") = some FieldKey.summaryValue from
        by decide,
      CommentData.updateKeyValPadding, Function.update_same]

theorem claim10_witness :
    replaceEnabledSuffix "summary-value" = "summary-value"
    ∧ ((CommentData.init.updateAttrEnabled "summary-value" true).fields
          FieldKey.summaryValue).enabled = true := by
  exact claim10_suffix_substitution CommentData.init "summary-value" true (by decide)
